import Mathlib

/-!
Verification development for the Romi robot firmware (ME 405 term project).

The definitions below are a shallow embedding of the firmware's core
components, translated directly from the Python source files:

* `Motor`            from `src/motor.py` (DRV8838 driver wrapper);
* `Battery`          from `battery_droop.py`;
* `wrapDelta`, `Encoder` from `encoder.py`;
* `CLState`, `clRun` from `closed_loop.py` (PI controller);
* `MC`, `mcDispatch` from `src/motor_task.py` (MotorControlTask FSM);
* `St`, `stDispatch` from `steering_task.py` (SteeringTask FSM);
* `mainLoop`         from `main.py` (top-level scheduler loop).

Modelling conventions:
* Python floats are modelled as exact rationals (`ℚ`); decimal literals of
  the source are read as the rationals they denote (e.g. `0.6` becomes `3/5`).
* Millisecond / microsecond clocks (`millis`, `ticks_ms`, `ticks_us`) and
  hardware reads (timer counters, ADC) are inputs supplied by an environment
  record; all clock reads within a single task resumption are taken at the
  same instant.
* The factor `2*pi/1440` used by `ClosedLoop.run` to convert feedback from
  counts/s to rad/s is transcendental; it is carried as an abstract rational
  parameter `cfac` (every theorem below quantifies over it, and over the raw
  feedback value, so nothing depends on its concrete value).
* A Python run-time error (the only one reachable in the modelled fragment is
  the `TypeError` from multiplying by a `None` droop gain) is modelled by an
  `Option` result, with `none` meaning the exception propagates.
-/

/-- Python `int(x)` truncation of a float toward zero, on exact rationals
(`Int.tdiv` truncates toward zero like CPython `int()`). -/
def pyInt (q : ℚ) : ℤ := Int.tdiv q.num (q.den : ℤ)

/-- Python `min` of a list of floats.  CPython raises on an empty list; the
composition root only ever builds nonempty sensor-index lists, and the value
returned for `[]` here is an arbitrary default never relied upon. -/
def pyMin (l : List ℚ) : ℚ :=
  match l with
  | [] => 0
  | x :: xs => xs.foldl min x

/-- Python `max` of a list of floats (same conventions as `pyMin`). -/
def pyMax (l : List ℚ) : ℚ :=
  match l with
  | [] => 0
  | x :: xs => xs.foldl max x

/-- Python `sum` of a list of floats. -/
def pySum (l : List ℚ) : ℚ := l.foldl (· + ·) 0

-- ==========================================================================
-- Motor (src/motor.py)
-- ==========================================================================

/-- Motor driver state from `motor.py`: the `enabled` flag and the stored
(clamped) `effort`.  Pin/PWM hardware writes are not observable state. -/
structure Motor where
  enabled : Bool
  effort : ℚ
  deriving Repr, DecidableEq

/-- Sets the present effort requested from the motor; per `Motor.set_effort`,
a disabled motor ignores the command, otherwise the effort is clamped to
the range -100 to 100 and stored. -/
def Motor.setEffort (m : Motor) (e : ℚ) : Motor :=
  if m.enabled = false then m
  else { m with effort := max (min e 100) (-100) }

/-- Enables the motor driver per `Motor.enable`: a no-op when already
enabled, otherwise PWM and effort are zeroed and the driver wakes up. -/
def Motor.enable (m : Motor) : Motor :=
  if m.enabled then m else { enabled := true, effort := 0 }

/-- Disables the motor driver per `Motor.disable`: a no-op when already
disabled, otherwise PWM and effort are zeroed and the driver sleeps. -/
def Motor.disable (m : Motor) : Motor :=
  if m.enabled = false then m else { enabled := false, effort := 0 }

-- ==========================================================================
-- Battery (battery_droop.py)
-- ==========================================================================

/-- Battery monitor state from `battery_droop.py`: cached droop gain and
voltage (both `None` until first measured) and the one-shot low-battery
warning flag. -/
structure Battery where
  cached_gain : Option ℚ
  cached_voltage : Option ℚ
  warned : Bool
  deriving Repr, DecidableEq

/-- A freshly constructed `Battery`: no cached voltage or gain, not warned. -/
def Battery.init : Battery :=
  { cached_gain := none, cached_voltage := none, warned := false }

/-- Voltage-divider scale `(R_1_OHM + R_2_OHM) / R_2_OHM` with the measured
resistor values 9.98e3 and 4.712e3 ohm. -/
def Battery.scale : ℚ := (9980 + 4712) / 4712

/-- Total nominal battery voltage `6 * 1.3` volts. -/
def Battery.vNomTotal : ℚ := 6 * (13 / 10)

/-- Per `Battery.read_voltage`: converts a raw ADC reading (0-4095) into the
battery voltage through the divider, setting the one-shot low-battery
warning flag when the voltage is below 6.0 V.  Returns the updated state
and the measured voltage. -/
def Battery.readVoltage (b : Battery) (raw : ℚ) : Battery × ℚ :=
  let vadc := (raw / 4095) * (33 / 10)
  let vbatt := vadc * Battery.scale
  let b' := if vbatt < 6 ∧ b.warned = false then { b with warned := true } else b
  (b', vbatt)

/-- Per `Battery.droop_gain(refresh)`: the guard in the source is
`if self._cached_gain is not None or refresh:`, so a measurement is taken
exactly when a cached gain already exists or a refresh is requested; on a
fresh object with `refresh=False` no measurement happens and the cached
`None` is returned.  A measurement computes `V_NOM_TOTAL / V_batt`, or
unity gain when the voltage is implausibly low (at most 0.5 V). -/
def Battery.droopGain (b : Battery) (raw : ℚ) (refresh : Bool) :
    Battery × Option ℚ :=
  if b.cached_gain.isSome || refresh then
    let (b1, vbatt) := b.readVoltage raw
    let g := if vbatt ≤ 1 / 2 then 1 else Battery.vNomTotal / vbatt
    ({ b1 with cached_gain := some g, cached_voltage := some vbatt }, some g)
  else
    (b, b.cached_gain)

/-- Per `Battery.refresh`: clears the cached gain then forces a new droop
gain computation via `droop_gain(refresh=True)`. -/
def Battery.refreshGain (b : Battery) (raw : ℚ) : Battery × Option ℚ :=
  Battery.droopGain { b with cached_gain := none } raw true

-- ==========================================================================
-- Encoder (encoder.py)
-- ==========================================================================

/-- Wraparound-corrected delta from `Encoder.update`: with the 16-bit
auto-reload value `AR = 65535`, the raw difference `curr - prev` is shifted
by `AR + 1` when it falls outside the half-range `(AR + 1) // 2 = 32768`. -/
def wrapDelta (prev curr : ℤ) : ℤ :=
  let ar : ℤ := 65535
  let halfRange := (ar + 1) / 2
  let d := curr - prev
  if d < -halfRange then d + (ar + 1)
  else if d > halfRange then d - (ar + 1)
  else d

/-- Encoder software state from `encoder.py`: accumulated position, the
previous raw counter value and timestamp (microseconds), and the last
delta / `dt` / velocity computed by `update`. -/
structure Encoder where
  position_counts : ℤ
  prev_count : ℤ
  delta : ℤ
  prev_time : ℤ
  dt : ℤ
  velocity_counts_per_s : ℚ
  deriving Repr, DecidableEq

/-- Per `Encoder.update`, reading the hardware counter value `cnt` at time
`nowUs` (microseconds): computes the wrap-corrected delta, accumulates
position, and derives the raw velocity `delta*1e6/dt` (zero when `dt = 0`). -/
def Encoder.update (e : Encoder) (cnt : ℤ) (nowUs : ℤ) : Encoder :=
  let d := wrapDelta e.prev_count cnt
  let newDt := nowUs - e.prev_time
  let v : ℚ := if newDt ≠ 0 then ((d : ℚ) * 1000000) / (newDt : ℚ) else 0
  { position_counts := e.position_counts + d
    prev_count := cnt
    delta := d
    prev_time := nowUs
    dt := newDt
    velocity_counts_per_s := v }

/-- Per `Encoder.zero`: resets the accumulated position and re-bases the
previous counter value and timestamp on the current hardware reads; the
cached delta, `dt` and velocity are left as they were. -/
def Encoder.zeroed (e : Encoder) (cnt : ℤ) (nowUs : ℤ) : Encoder :=
  { e with position_counts := 0, prev_count := cnt, prev_time := nowUs }

-- ==========================================================================
-- ClosedLoop PI controller (closed_loop.py)
-- ==========================================================================

/-- Controller state from `closed_loop.py`: integrator accumulator, the
last-call timestamp (ms), and the last stored / returned outputs. -/
structure CLState where
  integrator : ℚ
  last_time : ℤ
  output : ℚ
  last_output : ℚ
  deriving Repr, DecidableEq

/-- A freshly constructed controller (constructor body of `ClosedLoop`),
with `t0` the `ticks_ms()` reading at construction. -/
def clInit (t0 : ℤ) : CLState :=
  { integrator := 0, last_time := t0, output := 0, last_output := 0 }

/-- Per `ClosedLoop.reset`: zeroes integrator and output and re-bases the
timestamp; note that `last_output` is deliberately not cleared by the
source, so a post-reset stall still holds the pre-reset output. -/
def CLState.clReset (s : CLState) (now : ℤ) : CLState :=
  { s with integrator := 0, output := 0, last_time := now }

/-- Per `ClosedLoop.run(fb)`.  Arguments: `cfac` is the abstract counts/s to
rad/s conversion factor (`2*pi/1440` in the source), `kp ki sp` are the
values read from the gain/setpoint shares, `emin emax` the effort limits
fixed at construction, `batt` the optional battery collaborator, `raw` the
ADC reading its `droop_gain()` call would take, `now` the `ticks_ms()`
reading, `fb` the velocity feedback.  Behaviour: when more than 1000 ms
elapsed since the previous call the last output is held (only `last_time`
advances); otherwise the PI law runs, the droop gain scales the output and
the result is clamped to the effort limits.  A `none` result models the
`TypeError` raised when `droop_gain()` returns `None` (fresh, never
refreshed battery), which propagates out of the caller. -/
def clRun (cfac kp ki sp emin emax : ℚ) (batt : Option Battery) (raw : ℚ)
    (now : ℤ) (fb : ℚ) (s : CLState) :
    Option (CLState × Option Battery × ℚ) :=
  let dtMs := now - s.last_time
  if dtMs > 1000 then
    some ({ s with last_time := now }, batt, s.last_output)
  else
    let dt : ℚ := (dtMs : ℚ) / 1000
    let fbRad := fb * cfac
    let error := sp - fbRad
    let integ := s.integrator + error * dt
    let u0 := kp * error + ki * integ
    match batt with
    | none =>
        let u1 := u0 * 1
        let u := max (min u1 emax) emin
        some ({ integrator := integ, last_time := now, output := u,
                last_output := u }, none, u)
    | some b =>
        match (b.droopGain raw false).2 with
        | none => none
        | some g =>
            let u1 := u0 * g
            let u := max (min u1 emax) emin
            some ({ integrator := integ, last_time := now, output := u,
                    last_output := u }, some (b.droopGain raw false).1, u)

/-- One call record for a `ClosedLoop.run` call history: the `ticks_ms()`
reading, the feedback, the setpoint/gain share values at that instant, and
the ADC reading the droop-gain measurement would take. -/
structure CLCall where
  now : ℤ
  fb : ℚ
  sp : ℚ
  kp : ℚ
  ki : ℚ
  raw : ℚ
  deriving Repr, DecidableEq

/-- An operation applied to a controller: a `run` call or a `reset`. -/
inductive CLOp where
  | runC (c : CLCall)
  | resetC (now : ℤ)
  deriving Repr, DecidableEq

/-- Efforts returned by a history of controller operations starting from
state `s` with battery collaborator `b`; a call that raises (none result of
`clRun`) terminates the history, as the exception propagates. -/
def clOutputs (cfac emin emax : ℚ) : CLState → Option Battery → List CLOp → List ℚ
  | _, _, [] => []
  | s, b, CLOp.resetC now :: ops => clOutputs cfac emin emax (s.clReset now) b ops
  | s, b, CLOp.runC c :: ops =>
      match clRun cfac c.kp c.ki c.sp emin emax b c.raw c.now c.fb s with
      | none => []
      | some (s', b', u) => u :: clOutputs cfac emin emax s' b' ops

-- ==========================================================================
-- MotorControlTask FSM (src/motor_task.py, the version instantiated by
-- main.py: its constructor signature matches the call in main.py)
-- ==========================================================================

/-- Per `MotorControlTask._split_setpoints(driving_mode_val, setpoint)`:
driving mode 0 (straight) keeps both sides equal, mode 1 (pivot) negates
the right side, any other value (arc) scales the right side by the fixed

ratio `0.6`. -/
def splitSetpoints (dm : ℕ) (sp : ℚ) : ℚ × ℚ :=
  if dm = 0 then (sp, sp)
  else if dm = 1 then (sp, -sp)
  else (sp, sp * (3 / 5))

/-- Environment for one `MotorControlTask` resumption: the millisecond and
microsecond clock readings, the two hardware encoder counter values, the
ADC reading any battery measurement would take, and the abstract feedback
conversion factor of the controllers. -/
structure MCEnv where
  nowMs : ℤ
  nowUs : ℤ
  cntL : ℤ
  cntR : ℤ
  raw : ℚ
  cfac : ℚ
  deriving Repr, DecidableEq

/-- Full observable state of the `MotorControlTask` object together with the
Shares and collaborators it touches.  Flag / mode Shares (`'B'` typed) are
naturals, float Shares are rationals, the telemetry integer Shares are
integers.  `fsm` holds `S0_INIT = 0`, `S1_WAIT_FOR_ENABLE = 1`,
`S2_RUN = 2`. -/
structure MC where
  fsm : ℕ
  eff : ℚ
  mtr_enable : ℕ
  motor_data_ready : ℕ
  run_observer : ℕ
  abortFlag : ℕ
  driving_mode : ℕ
  setpoint : ℚ
  kp : ℚ
  ki : ℚ
  control_mode : ℕ
  start_time : ℤ
  time_sh : ℤ
  left_pos_sh : ℤ
  right_pos_sh : ℤ
  left_vel_sh : ℤ
  right_vel_sh : ℤ
  left_sp : ℚ
  right_sp : ℚ
  left_eff_sh : ℚ
  right_eff_sh : ℚ
  motorL : Motor
  motorR : Motor
  encL : Encoder
  encR : Encoder
  battery : Option Battery
  ctrlL : CLState
  ctrlR : CLState
  t0 : ℤ
  deriving Repr, DecidableEq

/-- Telemetry tail of the RUN state body: applies the chosen efforts to both
motors, publishes timestamp / position / velocity samples (with Python
`int()` truncation for the velocities) and the effort monitors, and raises
the motor-data-ready flag. -/
def mcApplyOutputs (s : MC) (t : ℤ) (lp rp : ℤ) (lv rv : ℚ) (le re : ℚ) : MC :=
  { s with
    motorL := s.motorL.setEffort le
    motorR := s.motorR.setEffort re
    time_sh := t
    left_pos_sh := lp
    right_pos_sh := rp
    left_vel_sh := pyInt lv
    right_vel_sh := pyInt rv
    left_eff_sh := le
    right_eff_sh := re
    motor_data_ready := 1 }

/-- One pass through the FSM dispatch of `MotorControlTask.run` (the body of
the `while True` loop down to, but not including, the `yield`).  The `Bool`
result is `true` exactly when the pass ended in the `continue` statement of
the abort branch, i.e. control returns to the top of the loop instead of
reaching the `yield`.  A `none` result models an exception escaping the
pass (possible only in RUN modes 1 and 2 when a controller's droop-gain
query returns `None`). -/
def mcDispatch (env : MCEnv) (s : MC) : Option (MC × Bool) :=
  if s.fsm = 0 then
    -- INIT: zero encoders, disable motors, clear command/flag shares,
    -- set default modes, reset controllers, go to WAIT_FOR_ENABLE.
    some ({ s with
      encL := s.encL.zeroed env.cntL env.nowUs
      encR := s.encR.zeroed env.cntR env.nowUs
      motorL := s.motorL.disable
      motorR := s.motorR.disable
      eff := 0
      mtr_enable := 0
      run_observer := 0
      driving_mode := 0
      control_mode := 0
      ctrlL := s.ctrlL.clReset env.nowMs
      ctrlR := s.ctrlR.clReset env.nowMs
      fsm := 1 }, false)
  else if s.fsm = 1 then
    -- WAIT_FOR_ENABLE: on the enable flag, refresh the battery droop gain,
    -- zero encoders, record the run-start timestamp, enable motors, raise
    -- the run-observer flag and go to RUN.
    if s.mtr_enable ≠ 0 then
      some ({ s with
        battery := (s.battery.map (fun b => (b.refreshGain env.raw).1))
        encL := s.encL.zeroed env.cntL env.nowUs
        encR := s.encR.zeroed env.cntR env.nowUs
        t0 := env.nowMs
        start_time := env.nowMs
        motorL := s.motorL.enable
        motorR := s.motorR.enable
        run_observer := 1
        fsm := 2 }, false)
    else
      some (s, false)
  else if s.fsm = 2 then
    -- RUN: abort check first.
    if s.abortFlag ≠ 0 then
      some ({ s with
        motorL := s.motorL.disable
        motorR := s.motorR.disable
        ctrlL := s.ctrlL.clReset env.nowMs
        ctrlR := s.ctrlR.clReset env.nowMs
        run_observer := 0
        mtr_enable := 0
        fsm := 1 }, true)
    else
      let encL := s.encL.update env.cntL env.nowUs
      let encR := s.encR.update env.cntR env.nowUs
      let t := env.nowMs - s.t0
      let lp := encL.position_counts
      let rp := encR.position_counts
      let lv := encL.velocity_counts_per_s
      let rv := encR.velocity_counts_per_s
      let s1 := { s with encL := encL, encR := encR }
      if s.control_mode = 0 then
        -- MODE 0: open-loop effort split by driving mode.
        let lr := splitSetpoints s.driving_mode s.eff
        some (mcApplyOutputs s1 t lp rp lv rv lr.1 lr.2, false)
      else
        -- MODE 1 pushes the user setpoint into both wheel setpoint shares;
        -- MODE 2 keeps the shares SteeringTask wrote.  Then both
        -- controllers run (effort limits (-100, 100) from construction).
        let s2 := if s.control_mode = 1 then
          { s1 with left_sp := s.setpoint, right_sp := s.setpoint } else s1
        match clRun env.cfac s2.kp s2.ki s2.left_sp (-100) 100 s2.battery
            env.raw env.nowMs lv s2.ctrlL with
        | none => none
        | some (cL, b1, le) =>
          match clRun env.cfac s2.kp s2.ki s2.right_sp (-100) 100 b1
              env.raw env.nowMs rv s2.ctrlR with
          | none => none
          | some (cR, b2, re) =>
            let s3 := { s2 with ctrlL := cL, ctrlR := cR, battery := b2 }
            some (mcApplyOutputs s3 t lp rp lv rv le re, false)
  else
    -- States other than 0, 1, 2 fall through the if/elif chain to the yield.
    some (s, false)

/-- Fuel-bounded iteration of `mcDispatch` that follows `continue` edges,
also counting dispatch passes.  In the source the only `continue` is the
abort branch, whose successor state `S1_WAIT_FOR_ENABLE` cannot `continue`
again, so fuel 2 is exact (`mc_resume_passes` below proves the bound). -/
def mcRunAux (env : MCEnv) : ℕ → MC → ℕ → Option (MC × ℕ)
  | 0, _, _ => none
  | Nat.succ fuel, s, k =>
      match mcDispatch env s with
      | none => none
      | some (s1, false) => some (s1, k + 1)
      | some (s1, true) => mcRunAux env fuel s1 (k + 1)

/-- One resumption of the `MotorControlTask.run` generator: runs from the
last `yield` to the next one.  `none` models an exception escaping. -/
def mcResume (env : MCEnv) (s : MC) : Option MC :=
  (mcRunAux env 2 s 0).map Prod.fst

/-- Number of passes through the FSM dispatch performed by one resumption. -/
def mcPasses (env : MCEnv) (s : MC) : Option ℕ :=
  (mcRunAux env 2 s 0).map Prod.snd

-- ==========================================================================
-- SteeringTask FSM (steering_task.py)
-- ==========================================================================

/-- Environment for one `SteeringTask` resumption: the IR collaborator's
centroid estimate and line-seen flag (`ir.get_centroid()`), its ideal
center index (`ir.center_index()`), and the sum of its raw normalized
reading (`sum(ir.read())`). -/
structure StEnv where
  centroid : ℚ
  seen : Bool
  center : ℚ
  normSum : ℚ
  deriving Repr, DecidableEq

/-- Observable state of the `SteeringTask` object and the Shares it touches.
`fsm` holds `S0_INIT = 0`, `S1_WAIT_ENABLE = 1`, `S2_FOLLOW = 2`,
`S3_LOST = 3`, `S4_HEADING = 4`.  `sensor_index` is the IR array's fixed
board-index list (`[1, ..., 11]` in the composition root). -/
structure St where
  fsm : ℕ
  left_sp : ℚ
  right_sp : ℚ
  control_mode : ℕ
  mtr_enable : ℕ
  k_line : ℚ
  lf_target : ℚ
  bias : ℚ
  heading : ℚ
  heading_setpoint : ℚ
  k_heading : ℚ
  sensor_index : List ℚ
  deriving Repr, DecidableEq

/-- Sensor half-span used both for error normalization in FOLLOW and inside
`_compute_clamp_bound`: half the spread of the sensor indices, or 1.0 when
the spread is not positive. -/
def halfSpan (l : List ℚ) : ℚ :=
  let mn := pyMin l
  let mx := pyMax l
  if mx > mn then (1 / 2) * (mx - mn) else 1

/-- Per `SteeringTask._compute_clamp_bound`: `|target| + |k_line| * half_span`
floored at 1.0 to avoid a zero clamp. -/
def stClampBound (s : St) : ℚ :=
  max (|s.lf_target| + |s.k_line| * halfSpan s.sensor_index) 1

/-- Per `SteeringTask._publish(v_left, v_right)`: clamps both setpoints to
the symmetric bound and writes the per-wheel setpoint Shares. -/
def stPublish (s : St) (vl vr : ℚ) : St :=
  let m := stClampBound s
  { s with left_sp := max (min vl m) (-m), right_sp := max (min vr m) (-m) }

/-- One resumption of `SteeringTask.run` (one pass through its FSM dispatch
ending at the `yield`; the steering FSM has no `continue`). -/
def stDispatch (env : StEnv) (s : St) : St :=
  if s.fsm = 0 then
    -- INIT: zero the bias share, publish zero setpoints, go to WAIT_ENABLE.
    { stPublish { s with bias := 0 } 0 0 with fsm := 1 }
  else if s.fsm = 1 then
    -- WAIT_ENABLE: publish zero each tick; leave only on mode 2 or 3.
    let s1 := stPublish s 0 0
    if s.control_mode = 2 then { s1 with fsm := 2 }
    else if s.control_mode = 3 then { s1 with fsm := 4 }
    else s1
  else if s.fsm = 2 then
    -- FOLLOW: active only with line-following mode and motors enabled.
    if s.control_mode = 2 then
      if s.mtr_enable ≠ 0 then
        if env.seen = false then { s with fsm := 3 }
        else
          let errorNorm := (env.centroid - env.center) / halfSpan s.sensor_index
            + s.bias
          let correction := s.k_line * errorNorm
          stPublish s (s.lf_target + correction) (s.lf_target - correction)
      else s
    else { stPublish s 0 0 with fsm := 1 }
  else if s.fsm = 3 then
    -- LOST: creep forward at half the target speed until the raw IR sum
    -- exceeds the reacquire threshold 0.05.
    if s.control_mode ≠ 2 then { stPublish s 0 0 with fsm := 1 }
    else
      let v := (1 / 2) * s.lf_target
      let s1 := stPublish s v v
      if env.normSum > 1 / 20 then { s1 with fsm := 2 } else s1
  else if s.fsm = 4 then
    -- HEADING: steer toward a heading setpoint while mode 3 is selected.
    if s.control_mode = 3 then
      if s.mtr_enable ≠ 0 then
        let errorNorm := (s.heading - s.heading_setpoint) / 180
        let correction := s.k_heading * errorNorm
        stPublish s (s.lf_target + correction) (s.lf_target - correction)
      else s
    else { stPublish s 0 0 with fsm := 1 }
  else s

-- ==========================================================================
-- Top-level scheduler loop (main.py)
-- ==========================================================================

/-- Outcome of one `cotask.task_list.pri_sched()` call as seen by the
`try` in `main()`: normal return, a `KeyboardInterrupt`, or any other
exception (tagged by a numeric identity so re-raising is observable). -/
inductive SchedOutcome where
  | ok
  | kbInterrupt
  | err (e : ℕ)
  deriving Repr, DecidableEq

/-- How the `while True` scheduler loop in `main()` ends. -/
inductive MainExit where
  | running
  | clean
  | reraised (e : ℕ)
  deriving Repr, DecidableEq

/-- The `while True` loop of `main()` over a (finite prefix of a) stream of
scheduler-call outcomes: a `KeyboardInterrupt` disables both motors and
breaks out cleanly; any other exception disables both motors and is
re-raised; a normal return loops.  `running` means the supplied prefix was
exhausted with the loop still going. -/
def mainLoop : List SchedOutcome → Motor → Motor → MainExit × Motor × Motor
  | [], lm, rm => (MainExit.running, lm, rm)
  | SchedOutcome.ok :: rest, lm, rm => mainLoop rest lm rm
  | SchedOutcome.kbInterrupt :: _, lm, rm =>
      (MainExit.clean, lm.disable, rm.disable)
  | SchedOutcome.err e :: _, lm, rm =>
      (MainExit.reraised e, lm.disable, rm.disable)

-- ==========================================================================
-- Helper lemmas (shared)
-- ==========================================================================

/-- A disabled motor driver reports itself not enabled, whether or not the
disable call was a no-op. -/
lemma Motor.disable_not_enabled (m : Motor) : (m.disable).enabled = false := by
  unfold Motor.disable
  split_ifs with h
  · exact h
  · rfl

/-- Clamping to a symmetric bound keeps the magnitude within the bound. -/
lemma clamp_abs_le (v bound : ℚ) (h : 0 ≤ bound) :
    |max (min v bound) (-bound)| ≤ bound :=
  abs_le.mpr ⟨le_max_right _ _, max_le (min_le_right _ _) (neg_le_self h)⟩

/-- Any successful `clRun` call re-bases the stored timestamp to the call
instant and caches the value it returns as `last_output` (both branches of
the source do so). -/
lemma clRun_some_props (cfac kp ki sp emin emax : ℚ) (b : Option Battery)
    (raw : ℚ) (now : ℤ) (fb : ℚ) (s s' : CLState) (b' : Option Battery)
    (u : ℚ)
    (h : clRun cfac kp ki sp emin emax b raw now fb s = some (s', b', u)) :
    s'.last_time = now ∧ s'.last_output = u := by
  simp only [clRun] at h
  split_ifs at h with hdt
  · simp only [Option.some.injEq, Prod.mk.injEq] at h
    obtain ⟨h1, _, h3⟩ := h
    subst h1
    subst h3
    exact ⟨rfl, rfl⟩
  · split at h
    · simp only [Option.some.injEq, Prod.mk.injEq] at h
      obtain ⟨h1, _, h3⟩ := h
      subst h1
      subst h3
      exact ⟨rfl, rfl⟩
    · split at h
      · exact absurd h (by simp)
      · simp only [Option.some.injEq, Prod.mk.injEq] at h
        obtain ⟨h1, _, h3⟩ := h
        subst h1
        subst h3
        exact ⟨rfl, rfl⟩

/-- A successful `clRun` call returns an effort within the effort limits,
provided the limits are ordered and the held `last_output` already was. -/
lemma clRun_bounds (cfac kp ki sp emin emax : ℚ) (b : Option Battery)
    (raw : ℚ) (now : ℤ) (fb : ℚ) (s s' : CLState) (b' : Option Battery)
    (u : ℚ) (hle : emin ≤ emax)
    (hlo : emin ≤ s.last_output) (hhi : s.last_output ≤ emax)
    (h : clRun cfac kp ki sp emin emax b raw now fb s = some (s', b', u)) :
    emin ≤ u ∧ u ≤ emax := by
  have hclamp : ∀ v : ℚ, emin ≤ max (min v emax) emin ∧
      max (min v emax) emin ≤ emax :=
    fun v => ⟨le_max_right _ _, max_le (min_le_right _ _) hle⟩
  simp only [clRun] at h
  split_ifs at h with hdt
  · simp only [Option.some.injEq, Prod.mk.injEq] at h
    obtain ⟨_, _, h3⟩ := h
    rw [← h3]
    exact ⟨hlo, hhi⟩
  · split at h
    · simp only [Option.some.injEq, Prod.mk.injEq] at h
      obtain ⟨_, _, h3⟩ := h
      rw [← h3]
      exact hclamp _
    · split at h
      · exact absurd h (by simp)
      · simp only [Option.some.injEq, Prod.mk.injEq] at h
        obtain ⟨_, _, h3⟩ := h
        rw [← h3]
        exact hclamp _

/-- Bound propagation along a whole controller call history: every effort
a history produces stays within ordered limits whenever the starting
`last_output` does. -/
lemma clOutputs_bounds_aux (cfac emin emax : ℚ) (hle : emin ≤ emax) :
    ∀ (ops : List CLOp) (s : CLState) (b : Option Battery),
      emin ≤ s.last_output → s.last_output ≤ emax →
      ∀ u ∈ clOutputs cfac emin emax s b ops, emin ≤ u ∧ u ≤ emax := by
  intro ops
  induction ops with
  | nil =>
      intro s b _ _ u hu
      simp [clOutputs] at hu
  | cons op rest ih =>
      intro s b hlo hhi u hu
      cases op with
      | resetC now =>
          simp only [clOutputs] at hu
          exact ih (s.clReset now) b hlo hhi u hu
      | runC c =>
          simp only [clOutputs] at hu
          rcases hr : clRun cfac c.kp c.ki c.sp emin emax b c.raw c.now c.fb s
            with _ | ⟨s', b', v⟩
          · rw [hr] at hu
            simp at hu
          · rw [hr] at hu
            simp only [List.mem_cons] at hu
            have hv := clRun_bounds cfac c.kp c.ki c.sp emin emax b c.raw
              c.now c.fb s s' b' v hle hlo hhi hr
            rcases hu with rfl | hu
            · exact hv
            · have hlast := (clRun_some_props cfac c.kp c.ki c.sp emin emax b
                c.raw c.now c.fb s s' b' v hr).2
              exact ih s' b' (hlast ▸ hv.1) (hlast ▸ hv.2) u hu

-- ==========================================================================
-- C4: encoder wraparound correction
-- ==========================================================================

/-- C4 counterexample.  The claim allows a true displacement of magnitude
exactly `(AR+1)/2 = 32768`; at `prev = 32768`, `curr = 0` the displacement
`d = +32768` is consistent with the counter pair (both bounds and the
modular relation hold), yet the correction in `Encoder.update` returns
`-32768`, not `+32768`, so exact recovery fails at the boundary. -/
theorem wrapDelta_boundary_cex :
    (0 : ℤ) ≤ 32768 ∧ (32768 : ℤ) ≤ 65535 ∧
    (0 : ℤ) ≤ 0 ∧ (0 : ℤ) ≤ 65535 ∧
    ((0 : ℤ) - (32768 + 32768)) % 65536 = 0 ∧
    (32768 : ℤ).natAbs ≤ 32768 ∧
    wrapDelta 32768 0 = -32768 ∧
    wrapDelta 32768 0 ≠ 32768 := by
  refine ⟨by norm_num, by norm_num, le_refl 0, by norm_num, by decide,
    by norm_num, by decide, by decide⟩

/-- C4 (amended): for a 16-bit ring counter (`AR = 65535`) and any
`prev, curr` in `[0, AR]`, if the true signed displacement `d` (meaning
`curr ≡ prev + d (mod AR+1)`) has magnitude strictly below `(AR+1)/2`,
then the wraparound correction of `Encoder.update` recovers `d` exactly.
The claim's non-strict bound fails only at magnitude exactly 32768, where
the displacement is not determined by the counter pair (see the
counterexample); the strict bound is the exact validity region. -/
theorem wrapDelta_recovers_true_delta (prev curr d : ℤ)
    (hp0 : 0 ≤ prev) (hp1 : prev ≤ 65535)
    (hc0 : 0 ≤ curr) (hc1 : curr ≤ 65535)
    (hmod : (curr - (prev + d)) % 65536 = 0)
    (hmag : d.natAbs < 32768) :
    wrapDelta prev curr = d := by
  simp only [wrapDelta]
  split_ifs <;> omega

/-- C4 witness: the spec's own instance `prev = 65530`, `curr = 5` with true
displacement `+11` (indeed `5 ≡ 65530 + 11 (mod 65536)`). -/
theorem wrapDelta_recovers_true_delta_witness : wrapDelta 65530 5 = 11 :=
  wrapDelta_recovers_true_delta 65530 5 11 (by norm_num) (by norm_num)
    (by norm_num) (by norm_num) (by decide) (by norm_num)

-- ==========================================================================
-- C3: top-level scheduler loop fault handling (main.py)
-- ==========================================================================

/-- Scheduler iterations that return normally leave the loop running with
the motors untouched. -/
lemma mainLoop_ok_passes (pre : List SchedOutcome) (rest : List SchedOutcome)
    (lm rm : Motor) (hok : ∀ o ∈ pre, o = SchedOutcome.ok) :
    mainLoop (pre ++ rest) lm rm = mainLoop rest lm rm := by
  induction pre with
  | nil => rfl
  | cons o pre ih =>
      have ho : o = SchedOutcome.ok := hok o (List.mem_cons_self o pre)
      subst ho
      simpa [mainLoop] using ih (fun o ho => hok o (List.mem_cons_of_mem _ ho))

/-- C3: if, after any number of normal scheduler passes, an exception other
than `KeyboardInterrupt` escapes a task step into the top-level loop of
`main()`, the loop disables both motor actuators and re-raises that same
exception (it is not swallowed); a `KeyboardInterrupt` also disables both
motors but exits the loop cleanly. -/
theorem mainLoop_fault_disables_and_reraises :
    (∀ (pre : List SchedOutcome) (e : ℕ) (lm rm : Motor),
      (∀ o ∈ pre, o = SchedOutcome.ok) →
      mainLoop (pre ++ [SchedOutcome.err e]) lm rm =
        (MainExit.reraised e, lm.disable, rm.disable) ∧
      (lm.disable).enabled = false ∧ (rm.disable).enabled = false) ∧
    (∀ (pre : List SchedOutcome) (lm rm : Motor),
      (∀ o ∈ pre, o = SchedOutcome.ok) →
      mainLoop (pre ++ [SchedOutcome.kbInterrupt]) lm rm =
        (MainExit.clean, lm.disable, rm.disable) ∧
      (lm.disable).enabled = false ∧ (rm.disable).enabled = false) := by
  constructor
  · intro pre e lm rm hok
    rw [mainLoop_ok_passes pre _ lm rm hok]
    exact ⟨rfl, Motor.disable_not_enabled lm, Motor.disable_not_enabled rm⟩
  · intro pre lm rm hok
    rw [mainLoop_ok_passes pre _ lm rm hok]
    exact ⟨rfl, Motor.disable_not_enabled lm, Motor.disable_not_enabled rm⟩

/-- C3 witness: one normal pass, then exception number 7 with both motors
enabled at effort 5: the loop ends re-raising 7 with both motors disabled. -/
theorem mainLoop_fault_disables_and_reraises_witness :
    mainLoop [SchedOutcome.ok, SchedOutcome.err 7]
      ⟨true, 5⟩ ⟨true, -3⟩ =
      (MainExit.reraised 7, Motor.disable ⟨true, 5⟩, Motor.disable ⟨true, -3⟩) ∧
    (Motor.disable (⟨true, 5⟩ : Motor)).enabled = false ∧
    (Motor.disable (⟨true, -3⟩ : Motor)).enabled = false :=
  mainLoop_fault_disables_and_reraises.1 [SchedOutcome.ok] 7 ⟨true, 5⟩
    ⟨true, -3⟩ (by intro o ho; simpa using ho)

-- ==========================================================================
-- C5: ClosedLoop stall-hold after a scheduling gap
-- ==========================================================================

/-- C5: whenever a `ClosedLoop.run` call happens more than 1000 ms after
the previous (successful) call, it returns exactly the effort that
previous call returned, and the only state change is the re-based
timestamp: the integrator is not advanced with the gap's `dt`, the battery
is not queried, and the cached outputs are untouched.  This holds for any
prior history (`s` arbitrary) and any share/feedback/ADC values at both
calls. -/
theorem clRun_stall_gap_holds (cfac kp1 ki1 sp1 kp2 ki2 sp2 emin emax
      raw1 raw2 fb1 fb2 : ℚ) (b : Option Battery) (now1 now2 : ℤ)
    (s s1 : CLState) (b1 : Option Battery) (u1 : ℚ)
    (h1 : clRun cfac kp1 ki1 sp1 emin emax b raw1 now1 fb1 s =
      some (s1, b1, u1))
    (hgap : now2 - now1 > 1000) :
    clRun cfac kp2 ki2 sp2 emin emax b1 raw2 now2 fb2 s1 =
      some ({ s1 with last_time := now2 }, b1, u1) := by
  obtain ⟨ht, hu⟩ := clRun_some_props cfac kp1 ki1 sp1 emin emax b raw1 now1
    fb1 s s1 b1 u1 h1
  have hc : now2 - s1.last_time > 1000 := by rw [ht]; exact hgap
  simp only [clRun]
  rw [if_pos hc, hu]

/-- C5 witness: a first call at `t = 100` from a fresh controller returns 0;
a second call at `t = 2000` (gap 1900 ms) returns that same 0 and only
moves the timestamp. -/
theorem clRun_stall_gap_holds_witness :
    clRun 1 0 0 0 (-100) 100 none 0 2000 0 ⟨0, 100, 0, 0⟩ =
      some ({ (⟨0, 100, 0, 0⟩ : CLState) with last_time := 2000 }, none, 0) :=
  clRun_stall_gap_holds 1 0 0 0 0 0 0 (-100) 100 0 0 0 0 none 100 2000
    (clInit 0) ⟨0, 100, 0, 0⟩ none 0 (by norm_num [clRun, clInit]) (by decide)

-- ==========================================================================
-- C2: ClosedLoop effort always within the configured limits
-- ==========================================================================

/-- C2: for every call history of `ClosedLoop.run` starting from a freshly
constructed controller (interleaved `reset` calls allowed), with arbitrary
gain, setpoint, feedback, ADC/droop-gain and timing values at every call,
every returned effort lies within `[effort_min, effort_max]` inclusive —
including stall-hold calls that return the held last output.  The effort
limits are the constructor parameters; `(-100, 100)` everywhere in the
repository, and any limit pair straddling 0 works (0 is needed for the
initial `last_output`). -/
theorem clOutputs_within_limits (cfac emin emax : ℚ) (hmin : emin ≤ 0)
    (hmax : 0 ≤ emax) (t0 : ℤ) (b : Option Battery) (ops : List CLOp)
    (u : ℚ) (hu : u ∈ clOutputs cfac emin emax (clInit t0) b ops) :
    emin ≤ u ∧ u ≤ emax :=
  clOutputs_bounds_aux cfac emin emax (le_trans hmin hmax) ops (clInit t0) b
    hmin hmax u hu

/-- C2 witness: with limits `(-100, 100)`, the single-call history whose
call stalls (gap 2000 ms from construction) returns effort 0, which the
theorem places inside the limits. -/
theorem clOutputs_within_limits_witness :
    (-100 : ℚ) ≤ 0 ∧ (0 : ℚ) ≤ 100 ∧
    ((0 : ℚ) ∈ clOutputs 1 (-100) 100 (clInit 0) none
      [CLOp.runC ⟨2000, 0, 0, 0, 0, 0⟩]) ∧
    ((-100 : ℚ) ≤ 0 ∧ (0 : ℚ) ≤ 100) :=
  ⟨by norm_num, by norm_num, by norm_num [clOutputs, clRun, clInit],
    clOutputs_within_limits 1 (-100) 100 (by norm_num) (by norm_num) 0 none
      [CLOp.runC ⟨2000, 0, 0, 0, 0, 0⟩] 0
      (by norm_num [clOutputs, clRun, clInit])⟩

-- ==========================================================================
-- Concrete sample states (used by witnesses and counterexamples)
-- ==========================================================================

/-- A sample environment: all clocks, counters and ADC readings at zero. -/
def mcEnvSample : MCEnv :=
  { nowMs := 0, nowUs := 0, cntL := 0, cntR := 0, raw := 0, cfac := 0 }

/-- A sample encoder state, as after construction with the counter at 0. -/
def encSample : Encoder :=
  { position_counts := 0, prev_count := 0, delta := 0, prev_time := 0,
    dt := 0, velocity_counts_per_s := 0 }

/-- A sample `MotorControlTask` aggregate state with both motors enabled. -/
def mcBaseSample : MC :=
  { fsm := 0, eff := 0, mtr_enable := 0, motor_data_ready := 0,
    run_observer := 0, abortFlag := 0, driving_mode := 0, setpoint := 0,
    kp := 0, ki := 0, control_mode := 0, start_time := 0, time_sh := 0,
    left_pos_sh := 0, right_pos_sh := 0, left_vel_sh := 0, right_vel_sh := 0,
    left_sp := 0, right_sp := 0, left_eff_sh := 0, right_eff_sh := 0,
    motorL := { enabled := true, effort := 0 },
    motorR := { enabled := true, effort := 0 },
    encL := encSample, encR := encSample, battery := none,
    ctrlL := clInit 0, ctrlR := clInit 0, t0 := 0 }

/-- Sample state: WAIT_FOR_ENABLE with the enable flag raised and a fresh
(never measured) battery collaborator. -/
def mcWaitSample : MC :=
  { mcBaseSample with fsm := 1, mtr_enable := 1, battery := some Battery.init }

/-- Sample state: RUN with the abort Share set. -/
def mcAbortSample : MC :=
  { mcBaseSample with
    fsm := 2
    mtr_enable := 1
    run_observer := 1
    abortFlag := 1 }

/-- Sample state: RUN in open-loop effort mode (control mode 0), pivot
driving mode, commanded effort 7. -/
def mcMode0Sample : MC :=
  { mcBaseSample with
    fsm := 2
    mtr_enable := 1
    run_observer := 1
    driving_mode := 1
    eff := 7 }

/-- Sample state with an FSM tag outside (0, 1, 2): the dispatch chain of
the source falls through to the yield without touching anything. -/
def mcIdleSample : MC := { mcBaseSample with fsm := 3 }

/-- A sample IR environment: centroid exactly at the ideal center, line
seen, zero raw sum. -/
def stEnvSample : StEnv :=
  { centroid := 6, seen := true, center := 6, normSum := 0 }

/-- Sample `SteeringTask` state in FOLLOW with motors enabled, zero line
gain and a negative target speed (the composition root's 11-element
sensor-index list). -/
def stFollowSample : St :=
  { fsm := 2, left_sp := 0, right_sp := 0, control_mode := 2,
    mtr_enable := 1, k_line := 0, lf_target := -5, bias := 0, heading := 0,
    heading_setpoint := 0, k_heading := 0,
    sensor_index := [1, 2, 3, 4, 5, 6, 7, 8, 9, 10, 11] }

/-- Sample `SteeringTask` state in FOLLOW with motors disabled and nonzero
setpoint Shares left over from the previous enabled tick. -/
def stPauseSample : St :=
  { stFollowSample with
    mtr_enable := 0
    left_sp := 3
    right_sp := 3
    lf_target := 2
    k_line := 1 }

-- ==========================================================================
-- C10: lazy droop gain on a fresh Battery
-- ==========================================================================

/-- A battery refresh always leaves a numeric cached gain behind. -/
lemma refreshGain_sets_cache (b : Battery) (raw : ℚ) :
    ((b.refreshGain raw).1).cached_gain.isSome = true := by
  simp [Battery.refreshGain, Battery.droopGain, Battery.readVoltage]

/-- C10: on a freshly constructed `Battery`, `droop_gain()` with the default
`refresh=False` takes the no-measurement branch (the inverted cache guard
`_cached_gain is not None or refresh` is false) and returns `None` with the
object unchanged — no voltage measurement happens; `refresh()` always
produces a numeric gain; and the WAIT_FOR_ENABLE to RUN transition of
`MotorControlTask` calls `battery.refresh()`, so the battery entering RUN
carries a numeric cached gain for the controllers to multiply by. -/
theorem battery_droop_gain_lazy :
    (∀ raw : ℚ, Battery.init.droopGain raw false = (Battery.init, none)) ∧
    (∀ (b : Battery) (raw : ℚ), ((b.refreshGain raw).2).isSome = true) ∧
    (∀ (env : MCEnv) (s : MC) (b : Battery), s.fsm = 1 → s.mtr_enable ≠ 0 →
      s.battery = some b →
      ∃ s', mcDispatch env s = some (s', false) ∧
        ∃ b', s'.battery = some b' ∧ b'.cached_gain.isSome = true) := by
  refine ⟨?_, ?_, ?_⟩
  · intro raw
    simp [Battery.droopGain, Battery.init]
  · intro b raw
    simp [Battery.refreshGain, Battery.droopGain, Battery.readVoltage]
  · intro env s b h1 he hb
    have h0 : ¬ s.fsm = 0 := by omega
    unfold mcDispatch
    rw [if_neg h0, if_pos h1, if_pos he]
    refine ⟨_, rfl, (b.refreshGain env.raw).1, ?_, refreshGain_sets_cache b env.raw⟩
    show s.battery.map _ = _
    rw [hb]
    rfl

/-- C10 witness: stepping `mcWaitSample` (WAIT_FOR_ENABLE, enable flag set,
fresh battery) yields a state whose battery has a numeric cached gain. -/
theorem battery_droop_gain_lazy_witness :
    ∃ s', mcDispatch mcEnvSample mcWaitSample = some (s', false) ∧
      ∃ b', s'.battery = some b' ∧ b'.cached_gain.isSome = true :=
  battery_droop_gain_lazy.2.2 mcEnvSample mcWaitSample Battery.init rfl
    (by decide) rfl

-- ==========================================================================
-- C9: SteeringTask FOLLOW soft-pause when motors are disabled
-- ==========================================================================

/-- C9 counterexample: in FOLLOW with line-following mode selected and the
motor-enable Share clear, the claim says the step publishes zero to both
setpoint Shares; in the source the branch body is empty, so the Shares
keep their previous (here nonzero) values. -/
theorem st_soft_pause_cex :
    stPauseSample.fsm = 2 ∧ stPauseSample.control_mode = 2 ∧
    stPauseSample.mtr_enable = 0 ∧
    (stDispatch stEnvSample stPauseSample).left_sp = 3 ∧
    (stDispatch stEnvSample stPauseSample).right_sp = 3 ∧
    (3 : ℚ) ≠ 0 ∧
    (stDispatch stEnvSample stPauseSample).fsm = 2 :=
  ⟨rfl, rfl, rfl, rfl, rfl, by norm_num, rfl⟩

/-- C9 (amended): in FOLLOW with the control-mode Share at the
line-following value and the motor-enable Share clear, one step leaves the
entire steering state — in particular both per-wheel setpoint Shares and
the FSM state (still FOLLOW) — exactly unchanged; nothing is published. -/
theorem st_soft_pause_keeps_state (env : StEnv) (s : St) (h2 : s.fsm = 2)
    (hm : s.control_mode = 2) (he : s.mtr_enable = 0) :
    stDispatch env s = s := by
  have h0 : ¬ s.fsm = 0 := by omega
  have h1 : ¬ s.fsm = 1 := by omega
  have hne : ¬ s.mtr_enable ≠ 0 := by omega
  unfold stDispatch
  rw [if_neg h0, if_neg h1, if_pos h2, if_pos hm, if_neg hne]

/-- C9 witness: the soft-pause step applied to the concrete paused state. -/
theorem st_soft_pause_keeps_state_witness :
    stDispatch stEnvSample stPauseSample = stPauseSample :=
  st_soft_pause_keeps_state stEnvSample stPauseSample rfl rfl rfl

-- ==========================================================================
-- C8: SteeringTask published-setpoint magnitude bound
-- ==========================================================================

/-- C8 counterexample: with target -5 and zero line gain the FOLLOW step
publishes setpoint -5 (magnitude 5), but the claim's bound
`target + gain*half_span` evaluates to -5, so the claimed inequality fails
(the source clamps to `max(|target| + |gain|*half_span, 1.0)`, with
absolute values and a floor of 1, not to `target + gain*half_span`). -/
theorem st_publish_bound_cex :
    stFollowSample.fsm = 2 ∧ stFollowSample.control_mode = 2 ∧
    stFollowSample.mtr_enable ≠ 0 ∧ stEnvSample.seen = true ∧
    ¬(|(stDispatch stEnvSample stFollowSample).left_sp| ≤
        stFollowSample.lf_target +
          stFollowSample.k_line * halfSpan stFollowSample.sensor_index) := by
  refine ⟨rfl, rfl, by decide, rfl, ?_⟩
  norm_num [stDispatch, stPublish, stClampBound, halfSpan, pyMin, pyMax,
    stFollowSample, stEnvSample, List.foldl, min_def, max_def]

/-- C8 (amended): every pair of values the FOLLOW state publishes into the
per-wheel setpoint Shares (`left = target + correction`,
`right = target - correction`) is clamped so that each published value has
magnitude at most `max(|target| + |k_line| * half_span, 1)` — the bound
`_compute_clamp_bound` derives from the current gain/target, with absolute
values and floored at 1.0 — for all centroid, bias, line-gain and target
values. -/
theorem st_follow_publish_bounded (env : StEnv) (s : St) (h2 : s.fsm = 2)
    (hm : s.control_mode = 2) (he : s.mtr_enable ≠ 0)
    (hseen : env.seen = true) :
    |(stDispatch env s).left_sp| ≤
      max (|s.lf_target| + |s.k_line| * halfSpan s.sensor_index) 1 ∧
    |(stDispatch env s).right_sp| ≤
      max (|s.lf_target| + |s.k_line| * halfSpan s.sensor_index) 1 := by
  have h0 : ¬ s.fsm = 0 := by omega
  have h1 : ¬ s.fsm = 1 := by omega
  have hns : ¬ env.seen = false := by rw [hseen]; simp
  have hb : (0 : ℚ) ≤ max (|s.lf_target| + |s.k_line| * halfSpan s.sensor_index) 1 :=
    le_trans zero_le_one (le_max_right _ _)
  unfold stDispatch
  rw [if_neg h0, if_neg h1, if_pos h2, if_pos hm, if_pos he, if_neg hns]
  simp only [stPublish, stClampBound]
  exact ⟨clamp_abs_le _ _ hb, clamp_abs_le _ _ hb⟩

/-- C8 witness: the amended bound at the concrete FOLLOW state (target -5,
zero gain): the published value -5 has magnitude within `max(5, 1)`. -/
theorem st_follow_publish_bounded_witness :
    |(stDispatch stEnvSample stFollowSample).left_sp| ≤
      max (|stFollowSample.lf_target| +
        |stFollowSample.k_line| * halfSpan stFollowSample.sensor_index) 1 ∧
    |(stDispatch stEnvSample stFollowSample).right_sp| ≤
      max (|stFollowSample.lf_target| +
        |stFollowSample.k_line| * halfSpan stFollowSample.sensor_index) 1 :=
  st_follow_publish_bounded stEnvSample stFollowSample rfl rfl (by decide) rfl

-- ==========================================================================
-- MotorControlTask dispatch lemmas (shared by C1, C6, C7)
-- ==========================================================================

/-- A WAIT_FOR_ENABLE pass with the enable Share clear does nothing: the
guard is the whole state body. -/
lemma mcDispatch_wait_disabled (env : MCEnv) (s : MC) (h1 : s.fsm = 1)
    (he : s.mtr_enable = 0) : mcDispatch env s = some (s, false) := by
  have h0 : ¬ s.fsm = 0 := by omega
  have hne : ¬ s.mtr_enable ≠ 0 := by omega
  unfold mcDispatch
  rw [if_neg h0, if_pos h1, if_neg hne]

/-- The RUN pass with the abort Share set: disables both motors, resets
both controllers, clears the run-observer and enable Shares, moves to
WAIT_FOR_ENABLE, and ends in `continue` (flag `true`). -/
lemma mcDispatch_abort (env : MCEnv) (s : MC) (h2 : s.fsm = 2)
    (ha : s.abortFlag ≠ 0) :
    mcDispatch env s = some ({ s with
      motorL := s.motorL.disable
      motorR := s.motorR.disable
      ctrlL := s.ctrlL.clReset env.nowMs
      ctrlR := s.ctrlR.clReset env.nowMs
      run_observer := 0
      mtr_enable := 0
      fsm := 1 }, true) := by
  have h0 : ¬ s.fsm = 0 := by omega
  have h1 : ¬ s.fsm = 1 := by omega
  unfold mcDispatch
  rw [if_neg h0, if_neg h1, if_pos h2, if_pos ha]

/-- Inversion: the only dispatch pass that ends in `continue` is the RUN
pass with the abort Share set. -/
lemma mcDispatch_flag_true_inv (env : MCEnv) (s s1 : MC)
    (h : mcDispatch env s = some (s1, true)) :
    s.fsm = 2 ∧ s.abortFlag ≠ 0 := by
  by_cases h2 : s.fsm = 2
  · by_cases ha : s.abortFlag ≠ 0
    · exact ⟨h2, ha⟩
    · exfalso
      have h0 : ¬ s.fsm = 0 := by omega
      have h1 : ¬ s.fsm = 1 := by omega
      simp only [mcDispatch] at h
      rw [if_neg h0, if_neg h1, if_pos h2, if_neg ha] at h
      by_cases hcm : s.control_mode = 0
      · rw [if_pos hcm] at h
        simp at h
      · rw [if_neg hcm] at h
        split at h
        · exact Option.noConfusion h
        · split at h
          · exact Option.noConfusion h
          · simp at h
  · exfalso
    by_cases h0 : s.fsm = 0
    · simp only [mcDispatch] at h
      rw [if_pos h0] at h
      simp at h
    · by_cases h1 : s.fsm = 1
      · simp only [mcDispatch] at h
        rw [if_neg h0, if_pos h1] at h
        split_ifs at h <;> simp at h
      · simp only [mcDispatch] at h
        rw [if_neg h0, if_neg h1, if_neg h2] at h
        simp at h

-- ==========================================================================
-- C1: MotorControlTask abort handling in RUN
-- ==========================================================================

/-- C1: from RUN with the abort Share set, one resumption of the task's
generator disables both motor collaborators, resets both ClosedLoop
controllers, clears the run-observer and motor-enable Shares, leaves the
FSM in WAIT_FOR_ENABLE, and touches nothing else — the equality of the
whole state shows the encoders are not updated, no effort is applied, and
no telemetry Share (time/position/velocity/effort/data-ready) is written
in that tick. -/
theorem mc_abort_one_resumption (env : MCEnv) (s : MC) (h2 : s.fsm = 2)
    (ha : s.abortFlag ≠ 0) :
    mcResume env s = some ({ s with
      motorL := s.motorL.disable
      motorR := s.motorR.disable
      ctrlL := s.ctrlL.clReset env.nowMs
      ctrlR := s.ctrlR.clReset env.nowMs
      run_observer := 0
      mtr_enable := 0
      fsm := 1 }) ∧
    (s.motorL.disable).enabled = false ∧
    (s.motorR.disable).enabled = false := by
  have hd1 := mcDispatch_abort env s h2 ha
  have hd2 := mcDispatch_wait_disabled env ({ s with
      motorL := s.motorL.disable
      motorR := s.motorR.disable
      ctrlL := s.ctrlL.clReset env.nowMs
      ctrlR := s.ctrlR.clReset env.nowMs
      run_observer := 0
      mtr_enable := 0
      fsm := 1 }) rfl rfl
  refine ⟨?_, Motor.disable_not_enabled _, Motor.disable_not_enabled _⟩
  simp [mcResume, mcRunAux, hd1, hd2]

/-- C1 witness: the abort resumption at the concrete RUN state with both
motors enabled and the abort Share set. -/
theorem mc_abort_one_resumption_witness :
    mcResume mcEnvSample mcAbortSample = some ({ mcAbortSample with
      motorL := mcAbortSample.motorL.disable
      motorR := mcAbortSample.motorR.disable
      ctrlL := mcAbortSample.ctrlL.clReset mcEnvSample.nowMs
      ctrlR := mcAbortSample.ctrlR.clReset mcEnvSample.nowMs
      run_observer := 0
      mtr_enable := 0
      fsm := 1 }) ∧
    (mcAbortSample.motorL.disable).enabled = false ∧
    (mcAbortSample.motorR.disable).enabled = false :=
  mc_abort_one_resumption mcEnvSample mcAbortSample rfl (by decide)

-- ==========================================================================
-- C7: open-loop effort split in RUN mode 0
-- ==========================================================================

/-- C7: in RUN with the abort Share clear and the control-mode Share at 0
(open-loop effort), the single effort command is split by the driving-mode
Share — straight (0): `(e, e)`; pivot (1): `(e, -e)`; arc (otherwise):
`(e, 0.6*e)` — and those efforts are what the tick hands to both motor
collaborators via `set_effort` (which stores them clamped to the driver's
(-100, 100) range) and records in the effort-monitor Shares; the
ClosedLoop controllers are not run in this mode. -/
theorem mc_run_mode0_split (env : MCEnv) (s : MC) (h2 : s.fsm = 2)
    (ha : s.abortFlag = 0) (hm : s.control_mode = 0) :
    (∀ e : ℚ, splitSetpoints 0 e = (e, e) ∧ splitSetpoints 1 e = (e, -e) ∧
      splitSetpoints 2 e = (e, e * (3 / 5))) ∧
    ∃ s', mcResume env s = some s' ∧
      s'.left_eff_sh = (splitSetpoints s.driving_mode s.eff).1 ∧
      s'.right_eff_sh = (splitSetpoints s.driving_mode s.eff).2 ∧
      s'.motorL = s.motorL.setEffort (splitSetpoints s.driving_mode s.eff).1 ∧
      s'.motorR = s.motorR.setEffort (splitSetpoints s.driving_mode s.eff).2 ∧
      s'.ctrlL = s.ctrlL ∧ s'.ctrlR = s.ctrlR ∧ s'.fsm = 2 := by
  have h0 : ¬ s.fsm = 0 := by omega
  have h1 : ¬ s.fsm = 1 := by omega
  have hna : ¬ s.abortFlag ≠ 0 := by omega
  have hd : mcDispatch env s = some (mcApplyOutputs
      { s with encL := s.encL.update env.cntL env.nowUs,
               encR := s.encR.update env.cntR env.nowUs }
      (env.nowMs - s.t0)
      (s.encL.update env.cntL env.nowUs).position_counts
      (s.encR.update env.cntR env.nowUs).position_counts
      (s.encL.update env.cntL env.nowUs).velocity_counts_per_s
      (s.encR.update env.cntR env.nowUs).velocity_counts_per_s
      (splitSetpoints s.driving_mode s.eff).1
      (splitSetpoints s.driving_mode s.eff).2, false) := by
    simp only [mcDispatch] at *
    rw [if_neg h0, if_neg h1, if_pos h2, if_neg hna, if_pos hm]
  have hres : mcResume env s = some (mcApplyOutputs
      { s with encL := s.encL.update env.cntL env.nowUs,
               encR := s.encR.update env.cntR env.nowUs }
      (env.nowMs - s.t0)
      (s.encL.update env.cntL env.nowUs).position_counts
      (s.encR.update env.cntR env.nowUs).position_counts
      (s.encL.update env.cntL env.nowUs).velocity_counts_per_s
      (s.encR.update env.cntR env.nowUs).velocity_counts_per_s
      (splitSetpoints s.driving_mode s.eff).1
      (splitSetpoints s.driving_mode s.eff).2) := by
    simp [mcResume, mcRunAux, hd]
  exact ⟨fun e => ⟨rfl, rfl, rfl⟩, _, hres, rfl, rfl, rfl, rfl, rfl, rfl, h2⟩

/-- C7 witness: the mode-0 split at the concrete RUN state with driving
mode 1 (pivot) and commanded effort 7. -/
theorem mc_run_mode0_split_witness :
    (∀ e : ℚ, splitSetpoints 0 e = (e, e) ∧ splitSetpoints 1 e = (e, -e) ∧
      splitSetpoints 2 e = (e, e * (3 / 5))) ∧
    ∃ s', mcResume mcEnvSample mcMode0Sample = some s' ∧
      s'.left_eff_sh =
        (splitSetpoints mcMode0Sample.driving_mode mcMode0Sample.eff).1 ∧
      s'.right_eff_sh =
        (splitSetpoints mcMode0Sample.driving_mode mcMode0Sample.eff).2 ∧
      s'.motorL = mcMode0Sample.motorL.setEffort
        (splitSetpoints mcMode0Sample.driving_mode mcMode0Sample.eff).1 ∧
      s'.motorR = mcMode0Sample.motorR.setEffort
        (splitSetpoints mcMode0Sample.driving_mode mcMode0Sample.eff).2 ∧
      s'.ctrlL = mcMode0Sample.ctrlL ∧ s'.ctrlR = mcMode0Sample.ctrlR ∧
      s'.fsm = 2 :=
  mc_run_mode0_split mcEnvSample mcMode0Sample rfl rfl rfl

-- ==========================================================================
-- C6: one FSM dispatch pass per resumption
-- ==========================================================================

/-- C6 counterexample: the abort resumption of `MotorControlTask` ends in
`continue` (no intervening `yield`), so that single resumption makes two
passes through the FSM dispatch — the RUN abort branch and then the
WAIT_FOR_ENABLE body — not one. -/
theorem mc_single_pass_cex :
    mcAbortSample.fsm = 2 ∧ mcAbortSample.abortFlag ≠ 0 ∧
    mcPasses mcEnvSample mcAbortSample = some 2 ∧
    mcPasses mcEnvSample mcAbortSample ≠ some 1 := by
  have hd1 := mcDispatch_abort mcEnvSample mcAbortSample rfl (by decide)
  have hd2 := mcDispatch_wait_disabled mcEnvSample ({ mcAbortSample with
      motorL := mcAbortSample.motorL.disable
      motorR := mcAbortSample.motorR.disable
      ctrlL := mcAbortSample.ctrlL.clReset mcEnvSample.nowMs
      ctrlR := mcAbortSample.ctrlR.clReset mcEnvSample.nowMs
      run_observer := 0
      mtr_enable := 0
      fsm := 1 }) rfl rfl
  refine ⟨rfl, by decide, ?_, ?_⟩
  · simp [mcPasses, mcRunAux, hd1, hd2]
  · simp [mcPasses, mcRunAux, hd1, hd2]

/-- C6 (amended): every resumption of `MotorControlTask.run` that completes
ends in the yield returning the current state, and executes exactly one
effective FSM state body: either it is a single dispatch pass (every
non-abort resumption), or it is the RUN abort resumption, which `continue`s
into a second dispatch pass — the WAIT_FOR_ENABLE body — that is a no-op
(the abort path just cleared the enable Share), so the second pass leaves
the state unchanged.  No completed resumption makes more than two passes,
and the two-pass case happens exactly when RUN sees the abort Share set. -/
theorem mc_resume_one_effective_pass (env : MCEnv) (s r : MC)
    (h : mcResume env s = some r) :
    (mcDispatch env s = some (r, false) ∧ mcPasses env s = some 1 ∧
      ¬(s.fsm = 2 ∧ s.abortFlag ≠ 0)) ∨
    (s.fsm = 2 ∧ s.abortFlag ≠ 0 ∧ mcDispatch env s = some (r, true) ∧
      mcDispatch env r = some (r, false) ∧ mcPasses env s = some 2) := by
  rcases hd : mcDispatch env s with _ | ⟨t, c⟩
  · have hnone : mcResume env s = none := by simp [mcResume, mcRunAux, hd]
    rw [hnone] at h
    exact Option.noConfusion h
  · cases c with
    | false =>
        have hres : mcResume env s = some t := by
          simp [mcResume, mcRunAux, hd]
        have htr : t = r := by
          rw [hres] at h
          exact Option.some.inj h
        subst htr
        left
        refine ⟨rfl, by simp [mcPasses, mcRunAux, hd], ?_⟩
        rintro ⟨h2, ha⟩
        have habort := mcDispatch_abort env s h2 ha
        rw [hd] at habort
        simp at habort
    | true =>
        obtain ⟨h2, ha⟩ := mcDispatch_flag_true_inv env s t hd
        have habort := mcDispatch_abort env s h2 ha
        rw [hd] at habort
        simp only [Option.some.injEq, Prod.mk.injEq, and_true] at habort
        subst habort
        have hd2 := mcDispatch_wait_disabled env ({ s with
            motorL := s.motorL.disable
            motorR := s.motorR.disable
            ctrlL := s.ctrlL.clReset env.nowMs
            ctrlR := s.ctrlR.clReset env.nowMs
            run_observer := 0
            mtr_enable := 0
            fsm := 1 }) rfl rfl
        have hres : mcResume env s = some ({ s with
            motorL := s.motorL.disable
            motorR := s.motorR.disable
            ctrlL := s.ctrlL.clReset env.nowMs
            ctrlR := s.ctrlR.clReset env.nowMs
            run_observer := 0
            mtr_enable := 0
            fsm := 1 }) := by
          simp [mcResume, mcRunAux, hd, hd2]
        have htr : ({ s with
            motorL := s.motorL.disable
            motorR := s.motorR.disable
            ctrlL := s.ctrlL.clReset env.nowMs
            ctrlR := s.ctrlR.clReset env.nowMs
            run_observer := 0
            mtr_enable := 0
            fsm := 1 } : MC) = r := by
          rw [hres] at h
          exact Option.some.inj h
        right
        rw [← htr]
        exact ⟨h2, ha, rfl, hd2, by simp [mcPasses, mcRunAux, hd, hd2]⟩

/-- C6 witness: a single-pass resumption at a concrete state (FSM tag 3
falls through the dispatch chain straight to the yield). -/
theorem mc_resume_one_effective_pass_witness :
    (mcDispatch mcEnvSample mcIdleSample = some (mcIdleSample, false) ∧
      mcPasses mcEnvSample mcIdleSample = some 1 ∧
      ¬(mcIdleSample.fsm = 2 ∧ mcIdleSample.abortFlag ≠ 0)) ∨
    (mcIdleSample.fsm = 2 ∧ mcIdleSample.abortFlag ≠ 0 ∧
      mcDispatch mcEnvSample mcIdleSample = some (mcIdleSample, true) ∧
      mcDispatch mcEnvSample mcIdleSample = some (mcIdleSample, false) ∧
      mcPasses mcEnvSample mcIdleSample = some 2) :=
  mc_resume_one_effective_pass mcEnvSample mcIdleSample mcIdleSample rfl
